import Mathlib

/-!
Shallow embedding of the Oflo order-flow repository (src/orderflow.py and
src/flask_server.py).  Python floats are modelled as rationals; Python dicts
keyed by insertion order are modelled as association lists; `collections.deque`
with `maxlen` and plain list append are modelled explicitly.  Definitions
follow the source code; the few definitions written from the specification's
wording instead (for refinement comparisons) say so in their doc comments.
-/

namespace Oflo

/-! ### Traded-quantity snapshots and deltas
`OrderFlowAnalyzer.extract_traded_quantities` produces a dict with cumulative
`buy_quantity`, `sell_quantity` and `total_volume`; `calculate_traded_quantity_delta`
(orderflow.py lines 129-203) turns a (current, previous) pair of those into
per-interval flow metrics.  The time-based `flow_rate` field depends on
wall-clock timestamp parsing and is not modelled (no claim mentions it). -/

structure TradedData where
  buy_quantity : ℚ
  sell_quantity : ℚ
  total_volume : ℚ
  deriving Repr, DecidableEq

structure TradedDelta where
  buy_qty_delta : ℚ
  sell_qty_delta : ℚ
  volume_delta : ℚ
  net_trade_flow : ℚ
  buy_percentage : ℚ
  sell_percentage : ℚ
  buy_intensity : ℚ
  sell_intensity : ℚ
  interval_volume : ℚ
  deriving Repr, DecidableEq

/-- Embedding of `OrderFlowAnalyzer.calculate_traded_quantity_delta`.
The deltas are plain subtractions of the cumulative fields; the percentage
and intensity branches test `> 0` on their denominators and fall back to
50.0 resp. 0.5 otherwise. -/
def calculate_traded_quantity_delta (current previous : TradedData) : TradedDelta :=
  let buy_qty_delta := current.buy_quantity - previous.buy_quantity
  let sell_qty_delta := current.sell_quantity - previous.sell_quantity
  let volume_delta := current.total_volume - previous.total_volume
  let net_trade_flow := buy_qty_delta - sell_qty_delta
  let total_interval_volume := buy_qty_delta + sell_qty_delta
  let buy_percentage := if total_interval_volume > 0 then buy_qty_delta / total_interval_volume * 100 else 50
  let sell_percentage := if total_interval_volume > 0 then sell_qty_delta / total_interval_volume * 100 else 50
  let buy_intensity := if volume_delta > 0 then buy_qty_delta / volume_delta else 1/2
  let sell_intensity := if volume_delta > 0 then sell_qty_delta / volume_delta else 1/2
  { buy_qty_delta := buy_qty_delta
    sell_qty_delta := sell_qty_delta
    volume_delta := volume_delta
    net_trade_flow := net_trade_flow
    buy_percentage := buy_percentage
    sell_percentage := sell_percentage
    buy_intensity := buy_intensity
    sell_intensity := sell_intensity
    interval_volume := total_interval_volume }

/-! ### Directional signal scoring
`OrderFlowAnalyzer.generate_order_flow_signals` (orderflow.py lines 378-443)
accumulates integer scores through a chain of if/elif branches and picks a
label with a +2 hysteresis margin. -/

structure FlowSignalInput where
  net_trade_flow : ℚ
  buy_percentage : ℚ
  buy_intensity : ℚ
  imbalance : ℚ
  large_bid_count : ℕ
  large_ask_count : ℕ
  deriving Repr, DecidableEq

/-- Embedding of the score accumulation inside
`generate_order_flow_signals`: each of the five if/elif blocks adds its
weight to `bullish_signals` or to `bearish_signals` (or to neither), in
source order; the result is `(bullish_signals, bearish_signals)`. -/
def signal_scores (f : FlowSignalInput) : ℕ × ℕ :=
  let p1 : ℕ × ℕ :=
    if f.net_trade_flow > 0 then (3, 0) else if f.net_trade_flow < 0 then (0, 3) else (0, 0)
  let p2 : ℕ × ℕ :=
    if f.buy_percentage > 60 then (2, 0) else if f.buy_percentage < 40 then (0, 2) else (0, 0)
  let p3 : ℕ × ℕ :=
    if f.buy_intensity > 6/10 then (2, 0) else if f.buy_intensity < 4/10 then (0, 2) else (0, 0)
  let p4 : ℕ × ℕ :=
    if f.imbalance > 3/2 then (1, 0) else if f.imbalance < 67/100 then (0, 1) else (0, 0)
  let p5 : ℕ × ℕ :=
    if f.large_bid_count > f.large_ask_count then (1, 0)
    else if f.large_ask_count > f.large_bid_count then (0, 1) else (0, 0)
  (p1.1 + p2.1 + p3.1 + p4.1 + p5.1, p1.2 + p2.2 + p3.2 + p4.2 + p5.2)

/-- Embedding of the final label choice of `generate_order_flow_signals`. -/
def generate_order_flow_signals (f : FlowSignalInput) : String :=
  let (bullish, bearish) := signal_scores f
  if bullish > bearish + 2 then "BULLISH_FLOW"
  else if bearish > bullish + 2 then "BEARISH_FLOW"
  else "NEUTRAL_FLOW"

/-- Scoring table as worded by the specification, for comparison with
`signal_scores`: identical except that the bearish imbalance threshold is
stated as `< 0.667` where the source uses `< 0.67`. -/
def claimed_signal_scores (f : FlowSignalInput) : ℕ × ℕ :=
  let p1 : ℕ × ℕ :=
    if f.net_trade_flow > 0 then (3, 0) else if f.net_trade_flow < 0 then (0, 3) else (0, 0)
  let p2 : ℕ × ℕ :=
    if f.buy_percentage > 60 then (2, 0) else if f.buy_percentage < 40 then (0, 2) else (0, 0)
  let p3 : ℕ × ℕ :=
    if f.buy_intensity > 6/10 then (2, 0) else if f.buy_intensity < 4/10 then (0, 2) else (0, 0)
  let p4 : ℕ × ℕ :=
    if f.imbalance > 3/2 then (1, 0) else if f.imbalance < 667/1000 then (0, 1) else (0, 0)
  let p5 : ℕ × ℕ :=
    if f.large_bid_count > f.large_ask_count then (1, 0)
    else if f.large_ask_count > f.large_bid_count then (0, 1) else (0, 0)
  (p1.1 + p2.1 + p3.1 + p4.1 + p5.1, p1.2 + p2.2 + p3.2 + p4.2 + p5.2)

/-! ### History containers
`OrderFlowAnalyzer.__init__` (orderflow.py line 35) creates
`self.order_flow_history = deque(maxlen=1000)`; `process_order_flow` appends to
it.  Independently, `DhanWebSocketClient.on_message` (lines 699-702) appends
each decoded quote entry to a plain Python list `orderflow_history[security_id]`
with no bound. -/

/-- Append to a `collections.deque` with `maxlen = cap`, modelled on a list
whose head is the oldest element: when the deque is full the leftmost
(oldest) element is evicted. -/
def dequeAppend (cap : ℕ) (xs : List α) (x : α) : List α :=
  let ys := xs ++ [x]
  ys.drop (ys.length - cap)

/-- Append step of `DhanWebSocketClient.on_message` on the per-security list
`orderflow_history[str(security_id)]`: a plain unbounded `list.append`. -/
def on_message_hist (hist : List α) (e : α) : List α :=
  hist ++ [e]

/-! ### Time-bucket aggregation
`get_delta_data` in flask_server.py (lines 161-244) reads the per-security
rows in timestamp order, groups them with `pd.Grouper(freq=f'{interval}min')`
(a calendar-aligned grid of `interval`-minute bins spanning the data), and
emits one bucket per group with at least one row.  Timestamps are modelled in
minutes since the epoch, so a bin is the set of rows whose
`timestamp / interval` agree. -/

structure FlowRow where
  timestamp : ℕ
  buy_volume : ℚ
  sell_volume : ℚ
  ltp : Option ℚ
  volume : ℚ
  buy_initiated : ℚ
  sell_initiated : ℚ
  tick_delta : ℚ
  deriving Repr, DecidableEq

structure Bucket where
  timestamp : ℕ
  buy_volume : ℚ
  sell_volume : ℚ
  delta : ℚ
  buy_initiated : ℚ
  sell_initiated : ℚ
  tick_delta : ℚ
  inference : String
  open_ : Option ℚ
  high_ : Option ℚ
  low_ : Option ℚ
  close_ : Option ℚ
  deriving Repr, DecidableEq

/-- Calendar-aligned bin index of a timestamp (minutes) for a given interval
in minutes, mirroring `pd.Grouper(freq=f'{interval}min')` alignment to clock
multiples of the interval. -/
def bucketKey (interval : ℕ) (t : ℕ) : ℕ :=
  t / interval

/-- Bucket body built from one group of rows, mirroring the
`len(group) >= 2` / `len(group) == 1` branches of `get_delta_data`; an empty
group appends nothing.  `k` is the group's bin index (the code formats the
bin label as the bucket's timestamp string). -/
def mkBucket (k : ℕ) (group : List FlowRow) : Option Bucket :=
  match group with
  | [] => none
  | first :: rest =>
    if rest = [] then
      Option.some
        { timestamp := k
          buy_volume := 0
          sell_volume := 0
          delta := 0
          buy_initiated := 0
          sell_initiated := 0
          tick_delta := 0
          inference := "Neutral"
          open_ := first.ltp
          high_ := first.ltp
          low_ := first.ltp
          close_ := first.ltp }
    else
      let last := (first :: rest).getLast (by simp)
      let buy_delta := last.buy_volume - first.buy_volume
      let sell_delta := last.sell_volume - first.sell_volume
      let delta := buy_delta - sell_delta
      let buy_initiated_sum := ((first :: rest).map FlowRow.buy_initiated).sum
      let sell_initiated_sum := ((first :: rest).map FlowRow.sell_initiated).sum
      let tick_delta_sum := ((first :: rest).map FlowRow.tick_delta).sum
      let inference := if tick_delta_sum > 0 then "Buy Dominant"
        else if tick_delta_sum < 0 then "Sell Dominant" else "Neutral"
      let ohlc := (first :: rest).filterMap FlowRow.ltp
      Option.some
        { timestamp := k
          buy_volume := buy_delta
          sell_volume := sell_delta
          delta := delta
          buy_initiated := buy_initiated_sum
          sell_initiated := sell_initiated_sum
          tick_delta := tick_delta_sum
          inference := inference
          open_ := ohlc.head?
          high_ := ohlc.max?
          low_ := ohlc.min?
          close_ := ohlc.getLast? }

/-- Bin indices of the grouper's grid: every bin from the earliest row's bin
to the latest row's bin, empty bins included (pandas' time grouper generates
the full grid over the data's span). -/
def gridKeys (interval : ℕ) (rows : List FlowRow) : List ℕ :=
  match rows.map (fun r => bucketKey interval r.timestamp) with
  | [] => []
  | k :: ks =>
    let kmin := ks.foldl min k
    let kmax := ks.foldl max k
    List.range' kmin (kmax - kmin + 1)

/-- Embedding of the bucket loop of `get_delta_data`: for each bin of the
grid, the rows falling in that bin (in stored order) are turned into a
bucket, and bins for which `mkBucket` yields nothing contribute nothing. -/
def get_delta_data (interval : ℕ) (rows : List FlowRow) : List Bucket :=
  (gridKeys interval rows).filterMap fun k =>
    mkBucket k (rows.filter fun r => bucketKey interval r.timestamp = k)

/-! ### Tick-rule classification
`marketfeed_thread` in flask_server.py (lines 111-132) classifies each Quote
Data response with the tick rule against `prev_ltp[security_id]` and stores
`buy_initiated`, `sell_initiated`, `tick_delta`.  The Python guard is
`if prev is not None and ltq:`, i.e. truthiness of `ltq` (nonzero). -/

structure TickResult where
  buy_initiated : ℚ
  sell_initiated : ℚ
  tick_delta : ℚ
  deriving Repr, DecidableEq

/-- One tick-rule step of `marketfeed_thread` for a quote with price `ltp`
and last traded quantity `ltq`, given the previously seen price. -/
def tick_rule (prev : Option ℚ) (ltp ltq : ℚ) : TickResult :=
  let (buy_initiated, sell_initiated) :=
    match prev with
    | Option.none => ((0 : ℚ), (0 : ℚ))
    | Option.some p =>
      if ltq ≠ 0 then
        if ltp > p then (ltq, (0 : ℚ))
        else if ltp < p then ((0 : ℚ), ltq)
        else ((0 : ℚ), (0 : ℚ))
      else ((0 : ℚ), (0 : ℚ))
  { buy_initiated := buy_initiated
    sell_initiated := sell_initiated
    tick_delta := buy_initiated - sell_initiated }

/-- Ingestion loop over a sequence of `(ltp, ltq)` quote events for one
security: after each event `prev_ltp[security_id]` is set to that event's
price (unconditionally, as in the source). -/
def process_quotes (msgs : List (ℚ × ℚ)) : List TickResult :=
  (msgs.foldl
    (fun (acc : List TickResult × Option ℚ) m =>
      (acc.1 ++ [tick_rule acc.2 m.1 m.2], Option.some m.1))
    ([], Option.none)).1

/-! ### Flow summary
`OrderFlowAnalyzer.get_flow_summary` (orderflow.py lines 559-604) filters the
history to records newer than `now - lookback_minutes*60`, and summarises
them.  `signal_counts` is a Python dict built in record order (insertion
order = order of each label's first occurrence), and
`max(signal_counts.items(), key=lambda x: x[1])` returns the first item of
maximal count in that order. -/

structure FlowData where
  timestamp : ℚ
  imbalance_ratio : ℚ
  net_trade_flow : ℚ
  buy_percentage : ℚ
  signal : String
  deriving Repr, DecidableEq

/-- One step of `signal_counts[signal] = signal_counts.get(signal, 0) + 1`
on the insertion-ordered association list. -/
def incrCount (acc : List (String × ℕ)) (s : String) : List (String × ℕ) :=
  if acc.any (fun p => p.1 = s) then
    acc.map (fun p => if p.1 = s then (p.1, p.2 + 1) else p)
  else acc ++ [(s, 1)]

/-- The `signal_counts` dict of `get_flow_summary`, in insertion order. -/
def signal_counts (sigs : List String) : List (String × ℕ) :=
  sigs.foldl incrCount []

/-- Key order of the `signal_counts` dict: each label in order of its first
occurrence, as a Python dict orders its keys. -/
def firstOccs (sigs : List String) : List String :=
  sigs.foldl (fun ks s => if s ∈ ks then ks else ks ++ [s]) []

/-- Python `max(items, key=lambda x: x[1])` scanning `c :: cs`: the strict
`>` in the fold keeps the earliest item on ties, as CPython's `max` does. -/
def pyMax (c : String × ℕ) (cs : List (String × ℕ)) : String × ℕ :=
  cs.foldl (fun best x => if x.2 > best.2 then x else best) c

/-- The `max(signal_counts.items(), key=lambda x: x[1])[0]` step of
`get_flow_summary` (with its unreachable empty-dict default). -/
def dominant_signal (counts : List (String × ℕ)) : String :=
  match counts with
  | [] => "NEUTRAL_FLOW"
  | c :: cs => (pyMax c cs).1

structure FlowSummary where
  data_points : ℕ
  avg_imbalance_ratio : ℚ
  total_net_trade_flow : ℚ
  avg_buy_percentage : ℚ
  signal_distribution : List (String × ℕ)
  dominant_signal : String
  deriving Repr, DecidableEq

/-- Records of the history whose timestamp is strictly newer than
`now - lookback_minutes * 60` (timestamps in epoch seconds). -/
def recent_data (now lookback_minutes : ℚ) (hist : List FlowData) : List FlowData :=
  hist.filter (fun d => d.timestamp > now - lookback_minutes * 60)

/-- Embedding of `OrderFlowAnalyzer.get_flow_summary`; `Option.none` models
the empty-dict return when no record falls in the lookback window. -/
def get_flow_summary (now lookback_minutes : ℚ) (hist : List FlowData) :
    Option FlowSummary :=
  let recent := recent_data now lookback_minutes hist
  if recent = [] then Option.none
  else
    let counts := signal_counts (recent.map FlowData.signal)
    Option.some
      { data_points := recent.length
        avg_imbalance_ratio := ((recent.map FlowData.imbalance_ratio).sum) / recent.length
        total_net_trade_flow := (recent.map FlowData.net_trade_flow).sum
        avg_buy_percentage := ((recent.map FlowData.buy_percentage).sum) / recent.length
        signal_distribution := counts
        dominant_signal := dominant_signal counts }

/-- Dominant-label tie-break as worded by the specification, for comparison
with `dominant_signal`: among the labels, the winner is the first one whose
running count reaches the maximum total count as the records are scanned in
chronological insertion order. -/
def claimed_dominant (sigs : List String) : Option String :=
  let countOf := fun (s : String) (l : List String) => (l.filter (fun t => t = s)).length
  let m := (sigs.map (fun s => countOf s sigs)).foldl max 0
  (List.range (sigs.length + 1)).findSome? fun n =>
    (sigs.take n).getLast?.bind fun s =>
      if countOf s (sigs.take n) = m then Option.some s else Option.none

/-! ### WebSocket frame decoding
`DhanWebSocketClient.on_message` (orderflow.py lines 665-716).  Messages are
byte lists.  The 8-byte header is unpacked *outside* the `try` block (a
failing unpack there would escape to the caller), but only after the
`len(message) < 8` early return; the per-code payload unpacks are inside the
`try`, whose `except` prints and returns.  `struct.unpack` on a slice is
modelled by `readBytes`, which fails exactly when the slice is shorter than
the requested size.  Multi-byte fields are big-endian; float32 fields are
kept as their raw 4-byte big-endian integer patterns (their numeric value
plays no part in any claim), and the int16 `last_traded_qty` is decoded with
two's complement. -/

def readBytes (msg : List ℕ) (start len : ℕ) : Option (List ℕ) :=
  if start + len ≤ msg.length then Option.some ((msg.drop start).take len)
  else Option.none

/-- Big-endian byte-list to natural number. -/
def beNat (bs : List ℕ) : ℕ :=
  bs.foldl (fun a b => a * 256 + b) 0

/-- Signed big-endian 16-bit decode (two's complement), for `">h"`. -/
def beInt16 (bs : List ℕ) : ℤ :=
  let n := beNat bs
  if n < 32768 then (n : ℤ) else (n : ℤ) - 65536

structure QuoteEntry where
  ltp : ℕ
  last_traded_qty : ℤ
  ltt : ℕ
  atp : ℕ
  volume : ℕ
  sell_qty : ℕ
  buy_qty : ℕ
  day_open : ℕ
  day_close : ℕ
  day_high : ℕ
  day_low : ℕ
  deriving Repr, DecidableEq

/-- Possible results of one `on_message` call, as seen by the caller. -/
inductive WsOutcome where
  | ignoredShort
  | quote (security_id : ℕ) (entry : QuoteEntry)
  | ticker (security_id : ℕ) (ltp ltt : ℕ)
  | openInterest (security_id : ℕ) (oi : ℕ)
  | unhandled (code : ℕ)
  | caughtError
  | fatal
  deriving Repr, DecidableEq

/-- Body of the `try` block of `on_message`: the per-code payload parse,
guarded by the source's `len(message) >= …` checks; a failing unpack
(`Option.none`) stands for a `struct.error` raised inside the `try`. -/
def parse_payload (msg : List ℕ) (code security_id : ℕ) : Option WsOutcome :=
  if code = 4 ∧ 50 ≤ msg.length then
    (readBytes msg 8 4).bind fun ltp =>
    (readBytes msg 12 2).bind fun ltq =>
    (readBytes msg 14 4).bind fun ltt =>
    (readBytes msg 18 4).bind fun atp =>
    (readBytes msg 22 4).bind fun volume =>
    (readBytes msg 26 4).bind fun sell_qty =>
    (readBytes msg 30 4).bind fun buy_qty =>
    (readBytes msg 34 4).bind fun day_open =>
    (readBytes msg 38 4).bind fun day_close =>
    (readBytes msg 42 4).bind fun day_high =>
    (readBytes msg 46 4).bind fun day_low =>
    Option.some (WsOutcome.quote security_id
      { ltp := beNat ltp
        last_traded_qty := beInt16 ltq
        ltt := beNat ltt
        atp := beNat atp
        volume := beNat volume
        sell_qty := beNat sell_qty
        buy_qty := beNat buy_qty
        day_open := beNat day_open
        day_close := beNat day_close
        day_high := beNat day_high
        day_low := beNat day_low })
  else if code = 2 ∧ 16 ≤ msg.length then
    (readBytes msg 8 4).bind fun ltp =>
    (readBytes msg 12 4).bind fun ltt =>
    Option.some (WsOutcome.ticker security_id (beNat ltp) (beNat ltt))
  else if code = 5 ∧ 12 ≤ msg.length then
    (readBytes msg 8 4).bind fun oi =>
    Option.some (WsOutcome.openInterest security_id (beNat oi))
  else Option.some (WsOutcome.unhandled code)

/-- Embedding of `DhanWebSocketClient.on_message`.  `WsOutcome.fatal` marks
an exception escaping to the caller: it can only arise from the 8-byte
header unpack (`struct.unpack(">BHB I", message[:8])`), which sits outside
the `try` block; payload unpack failures inside the `try` are absorbed into
`WsOutcome.caughtError` (the `except` branch). -/
def on_message (msg : List ℕ) : WsOutcome :=
  if msg.length < 8 then WsOutcome.ignoredShort
  else
    match readBytes msg 0 8 with
    | Option.some header =>
      (parse_payload msg (beNat (header.take 1)) (beNat ((header.drop 4).take 4))).getD
        WsOutcome.caughtError
    | Option.none => WsOutcome.fatal

/-! ### Concrete fixtures used by witnesses and counterexamples -/

/-- A stored row at minute 555 (bin 111 for a 5-minute interval). -/
def row1 : FlowRow := ⟨555, 1, 2, Option.some 10, 5, 1, 0, 1⟩

/-- A stored row at minute 556 (same 5-minute bin as `row1`). -/
def row2 : FlowRow := ⟨556, 4, 3, Option.some 12, 9, 0, 2, -2⟩

/-- The single bucket produced from `[row1]` at interval 5. -/
def buck1 : Bucket :=
  ⟨111, 0, 0, 0, 0, 0, 0, "Neutral", Option.some 10, Option.some 10, Option.some 10, Option.some 10⟩

/-- Four records, all inside a 30-minute window ending at time 400, whose
signals are tied two against two; the bearish label is the first to reach
the maximal count but the bullish label was inserted first. -/
def hist4 : List FlowData :=
  [⟨100, 1, 0, 50, "BULLISH_FLOW"⟩, ⟨200, 1, 0, 50, "BEARISH_FLOW"⟩,
   ⟨300, 1, 0, 50, "BEARISH_FLOW"⟩, ⟨400, 1, 0, 50, "BULLISH_FLOW"⟩]

/-- Delta of a rolled-over snapshot pair: every cumulative field decreased
(previous buy 10, current 0; previous volume 10, current 0). -/
def c8delta : TradedDelta := calculate_traded_quantity_delta ⟨0, 0, 0⟩ ⟨10, 0, 10⟩

/-- The summary the engine produces for `hist4` over a 30-minute window at
time 400. -/
def summary4 : FlowSummary :=
  ⟨4, 1, 0, 50, [("BULLISH_FLOW", 2), ("BEARISH_FLOW", 2)], "BULLISH_FLOW"⟩

/-! ## Theorems -/

/-! ### Delta computation and rollover (C1, C8) -/

/-- C1: the source has no rollover branch.  With previous cumulative buy
10000 and current 50 the computed `buy_qty_delta` is -9950: it is negative
and is not the current value 50, refuting the claimed
rollover-as-current-value behaviour. -/
theorem C1_counterexample :
    (calculate_traded_quantity_delta ⟨50, 0, 0⟩ ⟨10000, 0, 0⟩).buy_qty_delta = -9950 ∧
    (calculate_traded_quantity_delta ⟨50, 0, 0⟩ ⟨10000, 0, 0⟩).buy_qty_delta < 0 ∧
    (calculate_traded_quantity_delta ⟨50, 0, 0⟩ ⟨10000, 0, 0⟩).buy_qty_delta ≠ 50 := by
  norm_num [calculate_traded_quantity_delta]

/-- C1 (amended): `calculate_traded_quantity_delta` always reports the plain
differences of the cumulative fields; when a cumulative field is smaller
than in the previous snapshot the delta is that (negative) difference, not
the current value. -/
theorem C1_delta_plain_subtraction (c p : TradedData) :
    (calculate_traded_quantity_delta c p).buy_qty_delta = c.buy_quantity - p.buy_quantity ∧
    (calculate_traded_quantity_delta c p).sell_qty_delta = c.sell_quantity - p.sell_quantity ∧
    (calculate_traded_quantity_delta c p).volume_delta = c.total_volume - p.total_volume :=
  ⟨rfl, rfl, rfl⟩

/-- C8: at the rolled-over pair behind `c8delta` the denominator
`buy_qty_delta + sell_qty_delta` is -10, not 0, yet `buy_percentage` is the
default 50 instead of the claimed formula value 100; likewise
`volume_delta` is -10, not 0, yet `buy_intensity` is the default 1/2
instead of the claimed formula value 1. -/
theorem C8_counterexample :
    c8delta.buy_qty_delta + c8delta.sell_qty_delta = -10 ∧
    c8delta.buy_percentage = 50 ∧
    c8delta.buy_qty_delta / (c8delta.buy_qty_delta + c8delta.sell_qty_delta) * 100 = 100 ∧
    c8delta.volume_delta = -10 ∧
    c8delta.buy_intensity = 1/2 ∧
    c8delta.buy_qty_delta / c8delta.volume_delta = 1 := by
  norm_num [c8delta, calculate_traded_quantity_delta]

/-- C8 (amended): `buy_percentage` is the ratio formula only when the
interval denominator is strictly positive and defaults to 50.0 whenever it
is zero or negative; `buy_intensity` likewise defaults to 0.5 whenever
`volume_delta` is zero or negative. -/
theorem C8_percentage_intensity_defaults (c p : TradedData) :
    (calculate_traded_quantity_delta c p).buy_percentage =
      (if (c.buy_quantity - p.buy_quantity) + (c.sell_quantity - p.sell_quantity) > 0
       then (c.buy_quantity - p.buy_quantity) /
            ((c.buy_quantity - p.buy_quantity) + (c.sell_quantity - p.sell_quantity)) * 100
       else 50) ∧
    (calculate_traded_quantity_delta c p).buy_intensity =
      (if c.total_volume - p.total_volume > 0
       then (c.buy_quantity - p.buy_quantity) / (c.total_volume - p.total_volume)
       else 1/2) :=
  ⟨rfl, rfl⟩

/-! ### History bounds (C2) -/

theorem foldl_on_message_hist_length (es : List α) (hist : List α) :
    (es.foldl on_message_hist hist).length = hist.length + es.length := by
  induction es generalizing hist with
  | nil => simp
  | cons e es ih => simp [on_message_hist, ih]; omega

/-- C2: the per-instrument history written by `on_message` is a plain list
with no eviction: processing 1001 quote events for one security leaves 1001
records in `orderflow_history[security_id]`, exceeding the claimed bound of
1000. -/
theorem C2_counterexample :
    ((List.replicate 1001 (0 : ℕ)).foldl on_message_hist []).length = 1001 ∧
    1000 < 1001 := by
  refine ⟨?_, by norm_num⟩
  rw [foldl_on_message_hist_length, List.length_replicate]
  rfl

/-- C2 (amended): the bounded FIFO behaviour holds for the analyzer's
`order_flow_history` deque (`deque(maxlen=1000)`): appending never grows it
past 1000 and, when it is full, evicts exactly the oldest record; the
per-instrument `orderflow_history` lists filled by `on_message` are instead
unbounded. -/
theorem C2_deque_bounded_fifo (xs : List α) (x : α) (h : xs.length ≤ 1000) :
    (dequeAppend 1000 xs x).length ≤ 1000 ∧
    (xs.length = 1000 → dequeAppend 1000 xs x = xs.tail ++ [x]) ∧
    (xs.length < 1000 → dequeAppend 1000 xs x = xs ++ [x]) := by
  refine ⟨?_, ?_, ?_⟩
  · simp [dequeAppend]; omega
  · intro he
    cases xs with
    | nil => simp at he
    | cons a as =>
      simp at he
      have h9 : as.length = 999 := by omega
      simp [dequeAppend, h9]
  · intro hl
    have h0 : xs.length + 1 - 1000 = 0 := by omega
    simp [dequeAppend, h0]

/-- Witness for `C2_deque_bounded_fifo` at a full deque of 1000 entries. -/
theorem C2_deque_bounded_fifo_witness :
    (List.replicate 1000 (0 : ℕ)).length = 1000 ∧
    dequeAppend 1000 (List.replicate 1000 (0 : ℕ)) 7 = (List.replicate 1000 (0 : ℕ)).tail ++ [7] :=
  ⟨by rw [List.length_replicate],
   (C2_deque_bounded_fifo (List.replicate 1000 (0 : ℕ)) 7
      (by rw [List.length_replicate])).2.1 (by rw [List.length_replicate])⟩

/-! ### Tick rule (C5, C10) -/

/-- C5: with a previous price and a positive last traded quantity, a price
increase classifies the quantity as buy-initiated, a decrease as
sell-initiated, an unchanged price as neither; without a previous price
nothing is classified; and the specification's four-event scenario produces
exactly the claimed records. -/
theorem C5_tick_rule (p ltp ltq : ℚ) (hq : 0 < ltq) :
    (p < ltp → tick_rule (Option.some p) ltp ltq = ⟨ltq, 0, ltq⟩) ∧
    (ltp < p → tick_rule (Option.some p) ltp ltq = ⟨0, ltq, -ltq⟩) ∧
    (ltp = p → tick_rule (Option.some p) ltp ltq = ⟨0, 0, 0⟩) ∧
    (∀ q1 q2 : ℚ, tick_rule Option.none q1 q2 = ⟨0, 0, 0⟩) ∧
    process_quotes [(100, 10), (101, 20), (101, 15), (99, 30)] =
      [⟨0, 0, 0⟩, ⟨20, 0, 20⟩, ⟨0, 0, 0⟩, ⟨0, 30, -30⟩] := by
  refine ⟨?_, ?_, ?_, ?_, ?_⟩
  · intro h; simp [tick_rule, hq.ne', h]
  · intro h; simp [tick_rule, hq.ne', h, h.not_lt]
  · intro h; subst h; simp [tick_rule, hq.ne']
  · intro q1 q2; simp [tick_rule]
  · norm_num [process_quotes, tick_rule]

/-- Witness for `C5_tick_rule`: the three price cases at previous price 100
and quantity 5. -/
theorem C5_tick_rule_witness :
    tick_rule (Option.some 100) 101 5 = ⟨5, 0, 5⟩ ∧
    tick_rule (Option.some 100) 99 5 = ⟨0, 5, -5⟩ ∧
    tick_rule (Option.some 100) 100 5 = ⟨0, 0, 0⟩ :=
  ⟨(C5_tick_rule 100 101 5 (by norm_num)).1 (by norm_num),
   (C5_tick_rule 100 99 5 (by norm_num)).2.1 (by norm_num),
   (C5_tick_rule 100 100 5 (by norm_num)).2.2.1 rfl⟩

theorem tick_rule_one_sided (prev : Option ℚ) (ltp ltq : ℚ) :
    ((tick_rule prev ltp ltq).buy_initiated = 0 ∨ (tick_rule prev ltp ltq).sell_initiated = 0) ∧
    (tick_rule prev ltp ltq).tick_delta =
      (tick_rule prev ltp ltq).buy_initiated - (tick_rule prev ltp ltq).sell_initiated := by
  cases prev with
  | none => exact ⟨Or.inl rfl, rfl⟩
  | some p =>
    by_cases hq : ltq ≠ 0
    · by_cases h1 : ltp > p
      · simp [tick_rule, hq, h1]
      · by_cases h2 : ltp < p
        · simp [tick_rule, hq, h1, h2]
        · simp [tick_rule, hq, h1, h2]
    · simp [tick_rule, hq]

theorem mem_process_quotes_foldl (msgs : List (ℚ × ℚ)) (acc : List TickResult × Option ℚ)
    (r : TickResult)
    (hr : r ∈ (msgs.foldl
      (fun acc m => (acc.1 ++ [tick_rule acc.2 m.1 m.2], Option.some m.1)) acc).1) :
    r ∈ acc.1 ∨ ∃ prev ltp ltq, r = tick_rule prev ltp ltq := by
  induction msgs generalizing acc with
  | nil => exact Or.inl hr
  | cons m ms ih =>
    rcases ih _ hr with h | h
    · rcases List.mem_append.mp h with h1 | h1
      · exact Or.inl h1
      · exact Or.inr ⟨acc.2, m.1, m.2, List.mem_singleton.mp h1⟩
    · exact Or.inr h

/-- C10: every record emitted by the ingestion loop's tick-rule step has at
most one non-zero side, and its stored `tick_delta` is exactly
`buy_initiated - sell_initiated`. -/
theorem C10_tick_invariant (msgs : List (ℚ × ℚ)) (r : TickResult)
    (hr : r ∈ process_quotes msgs) :
    (r.buy_initiated = 0 ∨ r.sell_initiated = 0) ∧
    r.tick_delta = r.buy_initiated - r.sell_initiated := by
  rcases mem_process_quotes_foldl msgs ([], Option.none) r hr with h | ⟨prev, ltp, ltq, h⟩
  · simp at h
  · subst h; exact tick_rule_one_sided prev ltp ltq

/-- Witness for `C10_tick_invariant` on the second record of a two-event
sequence. -/
theorem C10_tick_invariant_witness :
    ((⟨20, 0, 20⟩ : TickResult).buy_initiated = 0 ∨
      (⟨20, 0, 20⟩ : TickResult).sell_initiated = 0) ∧
    (⟨20, 0, 20⟩ : TickResult).tick_delta =
      (⟨20, 0, 20⟩ : TickResult).buy_initiated - (⟨20, 0, 20⟩ : TickResult).sell_initiated :=
  C10_tick_invariant [(100, 10), (101, 20)] ⟨20, 0, 20⟩ (by norm_num [process_quotes, tick_rule])

/-! ### Time-bucket aggregation (C4, C6) -/

/-- C4: for a query bucket holding at least two snapshots, `buy_volume` and
`sell_volume` are the cumulative-field differences between the bucket's
last and first rows, `delta` is exactly `buy_volume - sell_volume`, the
tick-rule fields are sums over all rows of the bucket, and OHLC comes from
the non-null last-traded prices (open first, close last, high max, low
min). -/
theorem C4_bucket_fields (interval k : ℕ) (rows : List FlowRow) (first : FlowRow)
    (rest : List FlowRow)
    (hg : rows.filter (fun r => bucketKey interval r.timestamp = k) = first :: rest)
    (hr : rest ≠ []) :
    (mkBucket k (rows.filter fun r => bucketKey interval r.timestamp = k)).map Bucket.buy_volume =
      Option.some (((first :: rest).getLast (List.cons_ne_nil first rest)).buy_volume -
        first.buy_volume) ∧
    (mkBucket k (rows.filter fun r => bucketKey interval r.timestamp = k)).map Bucket.sell_volume =
      Option.some (((first :: rest).getLast (List.cons_ne_nil first rest)).sell_volume -
        first.sell_volume) ∧
    (mkBucket k (rows.filter fun r => bucketKey interval r.timestamp = k)).map Bucket.delta =
      (mkBucket k (rows.filter fun r => bucketKey interval r.timestamp = k)).map
        (fun b => b.buy_volume - b.sell_volume) ∧
    (mkBucket k (rows.filter fun r => bucketKey interval r.timestamp = k)).map Bucket.buy_initiated =
      Option.some (((first :: rest).map FlowRow.buy_initiated).sum) ∧
    (mkBucket k (rows.filter fun r => bucketKey interval r.timestamp = k)).map Bucket.sell_initiated =
      Option.some (((first :: rest).map FlowRow.sell_initiated).sum) ∧
    (mkBucket k (rows.filter fun r => bucketKey interval r.timestamp = k)).map Bucket.tick_delta =
      Option.some (((first :: rest).map FlowRow.tick_delta).sum) ∧
    (mkBucket k (rows.filter fun r => bucketKey interval r.timestamp = k)).map Bucket.open_ =
      Option.some (((first :: rest).filterMap FlowRow.ltp).head?) ∧
    (mkBucket k (rows.filter fun r => bucketKey interval r.timestamp = k)).map Bucket.close_ =
      Option.some (((first :: rest).filterMap FlowRow.ltp).getLast?) ∧
    (mkBucket k (rows.filter fun r => bucketKey interval r.timestamp = k)).map Bucket.high_ =
      Option.some (((first :: rest).filterMap FlowRow.ltp).max?) ∧
    (mkBucket k (rows.filter fun r => bucketKey interval r.timestamp = k)).map Bucket.low_ =
      Option.some (((first :: rest).filterMap FlowRow.ltp).min?) := by
  rw [hg]
  simp only [mkBucket, if_neg hr]
  exact ⟨rfl, rfl, rfl, rfl, rfl, rfl, rfl, rfl, rfl, rfl⟩

/-- Witness for `C4_bucket_fields` on the two-row bin 111 of `[row1, row2]`
at interval 5, checking the edge-delta and the delta identity. -/
theorem C4_bucket_fields_witness :
    (mkBucket 111 ([row1, row2].filter fun r => bucketKey 5 r.timestamp = 111)).map
        Bucket.buy_volume =
      Option.some (([row1, row2].getLast (List.cons_ne_nil row1 [row2])).buy_volume -
        row1.buy_volume) ∧
    (mkBucket 111 ([row1, row2].filter fun r => bucketKey 5 r.timestamp = 111)).map Bucket.delta =
      (mkBucket 111 ([row1, row2].filter fun r => bucketKey 5 r.timestamp = 111)).map
        (fun b => b.buy_volume - b.sell_volume) :=
  ⟨(C4_bucket_fields 5 111 [row1, row2] row1 [row2] (by decide) (by decide)).1,
   (C4_bucket_fields 5 111 [row1, row2] row1 [row2] (by decide) (by decide)).2.2.1⟩

theorem mkBucket_some_shape (k : ℕ) (g : List FlowRow) (b : Bucket)
    (h : mkBucket k g = Option.some b) : b.timestamp = k ∧ g ≠ [] := by
  cases g with
  | nil => simp [mkBucket] at h
  | cons first rest =>
    refine ⟨?_, by simp⟩
    by_cases hr : rest = []
    · simp [mkBucket, hr] at h
      rw [← h]
    · simp [mkBucket, hr] at h
      rw [← h]

/-- C6: a bucket built from a single snapshot reports zero for every volume
and delta field, all four OHLC fields equal to that snapshot's last traded
price, and the Neutral dominance label; and every bucket in the query
output comes from a non-empty bin (a bin with no snapshots contributes no
bucket). -/
theorem C6_single_snapshot_and_gaps (r : FlowRow) (k interval : ℕ) (rows : List FlowRow)
    (b : Bucket) (hb : b ∈ get_delta_data interval rows) :
    mkBucket k [r] = Option.some
      { timestamp := k, buy_volume := 0, sell_volume := 0, delta := 0, buy_initiated := 0,
        sell_initiated := 0, tick_delta := 0, inference := "Neutral",
        open_ := r.ltp, high_ := r.ltp, low_ := r.ltp, close_ := r.ltp } ∧
    rows.filter (fun x => bucketKey interval x.timestamp = b.timestamp) ≠ [] := by
  constructor
  · rfl
  · obtain ⟨k2, hk2, hmk⟩ := List.mem_filterMap.mp hb
    obtain ⟨hts, hne⟩ := mkBucket_some_shape k2 _ b hmk
    rw [hts]
    exact hne

/-- Witness for `C6_single_snapshot_and_gaps` on the one-row query
`get_delta_data 5 [row1]`, whose only bucket is `buck1`. -/
theorem C6_single_snapshot_and_gaps_witness :
    mkBucket 0 [row1] = Option.some
      { timestamp := 0, buy_volume := 0, sell_volume := 0, delta := 0, buy_initiated := 0,
        sell_initiated := 0, tick_delta := 0, inference := "Neutral",
        open_ := row1.ltp, high_ := row1.ltp, low_ := row1.ltp, close_ := row1.ltp } ∧
    [row1].filter (fun x => bucketKey 5 x.timestamp = buck1.timestamp) ≠ [] :=
  C6_single_snapshot_and_gaps row1 0 5 [row1] buck1 (by decide)

/-! ### Signal scoring (C3) -/

/-- C3: the claim's bearish imbalance threshold 0.667 differs from the
source's 0.67: at imbalance 0.668 (all other inputs neutral) the claimed
table yields no bearish point while the code scores bearish 1. -/
theorem C3_counterexample :
    claimed_signal_scores ⟨0, 50, 1/2, 668/1000, 0, 0⟩ = (0, 0) ∧
    signal_scores ⟨0, 50, 1/2, 668/1000, 0, 0⟩ = (0, 1) ∧
    ((0, 0) : ℕ × ℕ) ≠ (0, 1) := by
  refine ⟨?_, ?_, by decide⟩ <;> norm_num [claimed_signal_scores, signal_scores]

/-- C3 (amended): the score is the additive indicator sum with weights
+-3 (net flow sign), +-2 (buy percentage >60 / <40), +-2 (buy intensity
>0.6 / <0.4), +-1 (imbalance >1.5 / <0.67 -- the source constant, not
0.667) and +-1 (large-bid vs large-ask counts); the label needs a strict
margin of more than 2; and the specification's scenario scores (9, 0) with
label BULLISH_FLOW. -/
theorem C3_scoring (f : FlowSignalInput) :
    (signal_scores f).1 =
      (if 0 < f.net_trade_flow then 3 else 0) +
        (if 60 < f.buy_percentage then 2 else 0) +
        (if 6/10 < f.buy_intensity then 2 else 0) +
        (if 3/2 < f.imbalance then 1 else 0) +
        (if f.large_ask_count < f.large_bid_count then 1 else 0) ∧
    (signal_scores f).2 =
      (if f.net_trade_flow < 0 then 3 else 0) +
        (if f.buy_percentage < 40 then 2 else 0) +
        (if f.buy_intensity < 4/10 then 2 else 0) +
        (if f.imbalance < 67/100 then 1 else 0) +
        (if f.large_bid_count < f.large_ask_count then 1 else 0) ∧
    generate_order_flow_signals f =
      (if (signal_scores f).2 + 2 < (signal_scores f).1 then "BULLISH_FLOW"
       else if (signal_scores f).1 + 2 < (signal_scores f).2 then "BEARISH_FLOW"
       else "NEUTRAL_FLOW") ∧
    signal_scores ⟨500, 65, 7/10, 9/5, 1, 0⟩ = (9, 0) ∧
    generate_order_flow_signals ⟨500, 65, 7/10, 9/5, 1, 0⟩ = "BULLISH_FLOW" := by
  have hbull : ∀ g : FlowSignalInput, (signal_scores g).1 =
      (if 0 < g.net_trade_flow then 3 else 0) +
        (if 60 < g.buy_percentage then 2 else 0) +
        (if 6/10 < g.buy_intensity then 2 else 0) +
        (if 3/2 < g.imbalance then 1 else 0) +
        (if g.large_ask_count < g.large_bid_count then 1 else 0) := by
    intro g
    simp only [signal_scores]
    congr 1
    · congr 1
      · congr 1
        · congr 1
          · split_ifs <;> rfl
          · split_ifs <;> rfl
        · split_ifs <;> rfl
      · split_ifs <;> rfl
    · split_ifs <;> rfl
  have hbear : ∀ g : FlowSignalInput, (signal_scores g).2 =
      (if g.net_trade_flow < 0 then 3 else 0) +
        (if g.buy_percentage < 40 then 2 else 0) +
        (if g.buy_intensity < 4/10 then 2 else 0) +
        (if g.imbalance < 67/100 then 1 else 0) +
        (if g.large_bid_count < g.large_ask_count then 1 else 0) := by
    intro g
    simp only [signal_scores]
    congr 1
    · congr 1
      · congr 1
        · congr 1
          · split_ifs <;> first | rfl | (exfalso; linarith)
          · split_ifs <;> first | rfl | (exfalso; linarith)
        · split_ifs <;> first | rfl | (exfalso; linarith)
      · split_ifs <;> first | rfl | (exfalso; linarith)
    · split_ifs <;> first | rfl | (exfalso; omega)
  have hlabel : ∀ g : FlowSignalInput, generate_order_flow_signals g =
      (if (signal_scores g).2 + 2 < (signal_scores g).1 then "BULLISH_FLOW"
       else if (signal_scores g).1 + 2 < (signal_scores g).2 then "BEARISH_FLOW"
       else "NEUTRAL_FLOW") := by
    intro g
    rcases h : signal_scores g with ⟨b, s⟩
    simp [generate_order_flow_signals, h]
  have hscen : signal_scores ⟨500, 65, 7/10, 9/5, 1, 0⟩ = (9, 0) := by
    rw [Prod.ext_iff, hbull, hbear]
    norm_num
  refine ⟨hbull f, hbear f, hlabel f, hscen, ?_⟩
  rw [hlabel, hscen]
  norm_num

/-! ### Decoder totality (C9) -/

theorem readBytes_eq_some {msg : List ℕ} {start len : ℕ} (h : start + len ≤ msg.length) :
    readBytes msg start len = Option.some ((msg.drop start).take len) := by
  unfold readBytes
  rw [if_pos h]

theorem parse_payload_ne_fatal (msg : List ℕ) (code sid : ℕ) :
    parse_payload msg code sid ≠ Option.some WsOutcome.fatal := by
  unfold parse_payload
  by_cases h1 : code = 4 ∧ 50 ≤ msg.length
  · rw [if_pos h1]
    intro h
    simp only [Option.bind_eq_some] at h
    obtain ⟨_, -, _, -, _, -, _, -, _, -, _, -, _, -, _, -, _, -, _, -, _, -, h⟩ := h
    exact WsOutcome.noConfusion (Option.some.inj h)
  · rw [if_neg h1]
    by_cases h2 : code = 2 ∧ 16 ≤ msg.length
    · rw [if_pos h2]
      intro h
      simp only [Option.bind_eq_some] at h
      obtain ⟨_, -, _, -, h⟩ := h
      exact WsOutcome.noConfusion (Option.some.inj h)
    · rw [if_neg h2]
      by_cases h3 : code = 5 ∧ 12 ≤ msg.length
      · rw [if_pos h3]
        intro h
        simp only [Option.bind_eq_some] at h
        obtain ⟨_, -, h⟩ := h
        exact WsOutcome.noConfusion (Option.some.inj h)
      · rw [if_neg h3]
        intro h
        exact WsOutcome.noConfusion (Option.some.inj h)

/-- C9: on every input byte buffer -- shorter than the 8-byte header, with
an unrecognised code, or shorter than its code's minimum frame length --
`on_message` never lets an exception escape to its caller: the only
unguarded unpack (the header, outside the `try`) always succeeds once the
length-8 early return has been passed, and payload failures are caught. -/
theorem C9_no_fatal (msg : List ℕ) : on_message msg ≠ WsOutcome.fatal := by
  intro hfa
  unfold on_message at hfa
  by_cases h8 : msg.length < 8
  · rw [if_pos h8] at hfa
    exact WsOutcome.noConfusion hfa
  · rw [if_neg h8] at hfa
    rcases hh : readBytes msg 0 8 with _ | header
    · rw [readBytes_eq_some (by omega)] at hh
      exact Option.noConfusion hh
    · rw [hh] at hfa
      have h2 : (parse_payload msg (beNat (header.take 1))
          (beNat ((header.drop 4).take 4))).getD WsOutcome.caughtError = WsOutcome.fatal := hfa
      rcases hpp : parse_payload msg (beNat (header.take 1)) (beNat ((header.drop 4).take 4))
        with _ | o
      · rw [hpp] at h2
        exact WsOutcome.noConfusion h2
      · rw [hpp, Option.getD_some] at h2
        exact parse_payload_ne_fatal msg _ _ (h2 ▸ hpp)

/-! ### Flow summary (C7)
The dominant-label computation goes through the insertion-ordered counts
dict: its keys are the labels in first-occurrence order
(`map_fst_signal_counts`), its values the label counts
(`snd_eq_count_signal_counts`), and Python's `max` keeps the first entry of
maximal count (`pyMax_spec`), which is the label with the earliest first
occurrence among the tied ones (`find?_first_key`, `pairwise_firstOccs`). -/

theorem firstOccs_append_singleton (sigs : List String) (s : String) :
    firstOccs (sigs ++ [s]) =
      if s ∈ firstOccs sigs then firstOccs sigs else firstOccs sigs ++ [s] := by
  unfold firstOccs
  rw [List.foldl_append]
  rfl

theorem mem_firstOccs (sigs : List String) (t : String) :
    t ∈ firstOccs sigs ↔ t ∈ sigs := by
  induction sigs using List.reverseRecOn generalizing t with
  | nil => simp [firstOccs]
  | append_singleton ss s ih =>
    rw [firstOccs_append_singleton]
    by_cases hs : s ∈ firstOccs ss
    · rw [if_pos hs]
      rw [ih t]
      constructor
      · intro h
        exact List.mem_append_left _ h
      · intro h
        rcases List.mem_append.mp h with h | h
        · exact h
        · rw [List.mem_singleton.mp h]
          exact (ih s).mp hs
    · rw [if_neg hs]
      constructor
      · intro h
        rcases List.mem_append.mp h with h | h
        · exact List.mem_append_left _ ((ih t).mp h)
        · exact List.mem_append_right _ h
      · intro h
        rcases List.mem_append.mp h with h | h
        · exact List.mem_append_left _ ((ih t).mpr h)
        · exact List.mem_append_right _ h

theorem map_fst_incrCount (acc : List (String × ℕ)) (s : String) :
    (incrCount acc s).map Prod.fst =
      if s ∈ acc.map Prod.fst then acc.map Prod.fst else acc.map Prod.fst ++ [s] := by
  unfold incrCount
  by_cases h : acc.any (fun p => p.1 = s)
  · rcases List.any_eq_true.mp h with ⟨p, hp, hps⟩
    rw [decide_eq_true_eq] at hps
    rw [if_pos h, if_pos (hps ▸ List.mem_map_of_mem Prod.fst hp)]
    rw [List.map_map]
    apply List.map_congr_left
    intro q _
    simp only [Function.comp_apply]
    split_ifs with hq
    · rw [hq]
    · rfl
  · have hnm : s ∉ acc.map Prod.fst := by
      intro hs
      rcases List.mem_map.mp hs with ⟨p, hp, hps⟩
      exact absurd (List.any_eq_true.mpr ⟨p, hp, by simp [hps]⟩) h
    rw [if_neg h, if_neg hnm]
    simp

theorem map_fst_signal_counts_foldl (sigs : List String) (acc : List (String × ℕ)) :
    (sigs.foldl incrCount acc).map Prod.fst =
      sigs.foldl (fun ks s => if s ∈ ks then ks else ks ++ [s]) (acc.map Prod.fst) := by
  induction sigs generalizing acc with
  | nil => rfl
  | cons s ss ih => rw [List.foldl_cons, List.foldl_cons, ih, map_fst_incrCount]

theorem map_fst_signal_counts (sigs : List String) :
    (signal_counts sigs).map Prod.fst = firstOccs sigs :=
  map_fst_signal_counts_foldl sigs []

theorem pairwise_firstOccs (sigs : List String) :
    (firstOccs sigs).Pairwise (fun a b => sigs.indexOf a < sigs.indexOf b) := by
  induction sigs using List.reverseRecOn with
  | nil => simp [firstOccs]
  | append_singleton ss s ih =>
    rw [firstOccs_append_singleton]
    by_cases hs : s ∈ firstOccs ss
    · rw [if_pos hs]
      refine ih.imp_of_mem ?_
      intro a b ha hb hab
      rw [List.indexOf_append_of_mem ((mem_firstOccs ss a).mp ha),
          List.indexOf_append_of_mem ((mem_firstOccs ss b).mp hb)]
      exact hab
    · rw [if_neg hs]
      rw [List.pairwise_append]
      refine ⟨ih.imp_of_mem ?_, List.pairwise_singleton _ _, ?_⟩
      · intro a b ha hb hab
        rw [List.indexOf_append_of_mem ((mem_firstOccs ss a).mp ha),
            List.indexOf_append_of_mem ((mem_firstOccs ss b).mp hb)]
        exact hab
      · intro a ha b hb
        rw [List.mem_singleton.mp hb]
        have hass : a ∈ ss := (mem_firstOccs ss a).mp ha
        have hsss : s ∉ ss := fun hm => hs ((mem_firstOccs ss s).mpr hm)
        rw [List.indexOf_append_of_mem hass, List.indexOf_append_of_not_mem hsss]
        have h1 : ss.indexOf a < ss.length := List.indexOf_lt_length.mpr hass
        have h2 : List.indexOf s [s] = 0 := List.indexOf_cons_self s []
        omega

theorem snd_eq_count_signal_counts (sigs : List String) :
    ∀ kv ∈ signal_counts sigs, kv.2 = sigs.count kv.1 := by
  induction sigs using List.reverseRecOn with
  | nil =>
    intro kv h
    simp [signal_counts] at h
  | append_singleton ss s ih =>
    intro kv hkv
    have hsc : signal_counts (ss ++ [s]) = incrCount (signal_counts ss) s := by
      unfold signal_counts
      rw [List.foldl_append]
      rfl
    rw [hsc] at hkv
    unfold incrCount at hkv
    by_cases hany : (signal_counts ss).any (fun p => p.1 = s)
    · rw [if_pos hany] at hkv
      rcases List.mem_map.mp hkv with ⟨p, hp, hbump⟩
      by_cases hps : p.1 = s
      · rw [if_pos hps] at hbump
        rw [← hbump]
        rw [List.count_append]
        have hc1 : List.count (p.1, p.2 + 1).1 [s] = 1 := by
          simp [List.count_singleton, hps]
        have hcp : (p.1, p.2 + 1).1 = p.1 := rfl
        rw [hc1, hcp, ← ih p hp]
      · rw [if_neg hps] at hbump
        rw [← hbump]
        rw [List.count_append]
        have hc0 : List.count p.1 [s] = 0 := by
          simp [List.count_singleton]
          intro he
          exact absurd he.symm hps
        rw [hc0, ← ih p hp]
        omega
    · rw [if_neg hany] at hkv
      rcases List.mem_append.mp hkv with h | h
      · have hne : kv.1 ≠ s := by
          intro he
          exact absurd (List.any_eq_true.mpr ⟨kv, h, by simp [he]⟩) hany
        rw [List.count_append]
        have hc0 : List.count kv.1 [s] = 0 := by
          simp [List.count_singleton]
          intro he
          exact absurd he.symm hne
        rw [hc0, ← ih kv h]
        omega
      · rw [List.mem_singleton.mp h]
        have hnss : s ∉ ss := by
          intro hmem
          have hkeys : s ∈ (signal_counts ss).map Prod.fst := by
            rw [map_fst_signal_counts]
            exact (mem_firstOccs ss s).mpr hmem
          rcases List.mem_map.mp hkeys with ⟨p, hp, hps⟩
          exact absurd (List.any_eq_true.mpr ⟨p, hp, by simp [hps]⟩) hany
        have : List.count s ss = 0 := List.count_eq_zero_of_not_mem hnss
        simp [List.count_append, this]

theorem pyMax_append_singleton (c : String × ℕ) (cs : List (String × ℕ)) (x : String × ℕ) :
    pyMax c (cs ++ [x]) = if x.2 > (pyMax c cs).2 then x else pyMax c cs := by
  unfold pyMax
  rw [List.foldl_append]
  rfl

theorem pyMax_spec (c : String × ℕ) (cs : List (String × ℕ)) :
    pyMax c cs ∈ c :: cs ∧
    (∀ x ∈ c :: cs, x.2 ≤ (pyMax c cs).2) ∧
    (c :: cs).find? (fun x => x.2 == (pyMax c cs).2) = Option.some (pyMax c cs) := by
  induction cs using List.reverseRecOn with
  | nil =>
    refine ⟨List.mem_singleton_self _, ?_, ?_⟩
    · intro x hx
      rw [List.mem_singleton.mp hx]
      exact Nat.le.refl
    · rw [List.find?_cons_of_pos _ (by simp [pyMax])]
      rfl
  | append_singleton cs x ih =>
    obtain ⟨hmem, hmax, hfind⟩ := ih
    rw [show c :: (cs ++ [x]) = (c :: cs) ++ [x] from rfl]
    rw [pyMax_append_singleton]
    by_cases hx : x.2 > (pyMax c cs).2
    · rw [if_pos hx]
      refine ⟨List.mem_append_right _ (List.mem_singleton_self _), ?_, ?_⟩
      · intro y hy
        rcases List.mem_append.mp hy with h | h
        · exact le_of_lt (lt_of_le_of_lt (hmax y h) hx)
        · rw [List.mem_singleton.mp h]
      · rw [List.find?_append]
        have hnone : (c :: cs).find? (fun y => y.2 == x.2) = Option.none := by
          rw [List.find?_eq_none]
          intro y hy
          simp only [beq_iff_eq]
          intro he
          have h1 := hmax y hy
          omega
        rw [hnone]
        rw [List.find?_cons_of_pos _ (by simp)]
        rfl
    · rw [if_neg hx]
      refine ⟨List.mem_append_left _ hmem, ?_, ?_⟩
      · intro y hy
        rcases List.mem_append.mp hy with h | h
        · exact hmax y h
        · rw [List.mem_singleton.mp h]
          omega
      · rw [List.find?_append, hfind]
        rfl

theorem find?_first_key (sigs : List String) (l : List (String × ℕ)) :
    ∀ (r kv : String × ℕ),
      l.find? (fun x => x.2 == r.2) = Option.some r → kv ∈ l → kv.2 = r.2 →
      (l.map Prod.fst).Pairwise (fun a b => sigs.indexOf a < sigs.indexOf b) →
      sigs.indexOf r.1 ≤ sigs.indexOf kv.1 := by
  induction l with
  | nil =>
    intro r kv hfind hkv
    exact absurd hkv (List.not_mem_nil kv)
  | cons c cs ih =>
    intro r kv hfind hkv hval hpw
    rw [List.map_cons] at hpw
    rcases List.pairwise_cons.mp hpw with ⟨hhead, htail⟩
    by_cases hc : c.2 = r.2
    · rw [List.find?_cons_of_pos _ (by simp [hc])] at hfind
      have hcr : c = r := Option.some.inj hfind
      rcases List.mem_cons.mp hkv with h | h
      · rw [h, ← hcr]
      · have hlt := hhead kv.1 (List.mem_map_of_mem Prod.fst h)
        rw [hcr] at hlt
        exact le_of_lt hlt
    · rw [List.find?_cons_of_neg _ (by simp [hc])] at hfind
      rcases List.mem_cons.mp hkv with h | h
      · exact absurd (h ▸ hval) hc
      · exact ih r kv hfind h hval htail

/-- C7: the as-stated tie-break ("first label to reach the maximum count")
is wrong: on signals BULLISH, BEARISH, BEARISH, BULLISH the bearish label is
the first to reach the tied maximum count 2, but the engine reports
BULLISH_FLOW, the first-inserted tied label. -/
theorem C7_counterexample :
    (get_flow_summary 400 30 hist4).map FlowSummary.dominant_signal =
      Option.some "BULLISH_FLOW" ∧
    claimed_dominant ((recent_data 400 30 hist4).map FlowData.signal) =
      Option.some "BEARISH_FLOW" ∧
    ("BULLISH_FLOW" : String) ≠ "BEARISH_FLOW" := by
  have hAB : ("BULLISH_FLOW" : String) ≠ "BEARISH_FLOW" := by decide
  have hBA : ("BEARISH_FLOW" : String) ≠ "BULLISH_FLOW" := by decide
  refine ⟨?_, ?_, hAB⟩
  · norm_num [get_flow_summary, recent_data, hist4, signal_counts, incrCount,
      dominant_signal, pyMax, hAB, hBA]
    exact ⟨_, ⟨by simp, rfl⟩, rfl⟩
  · have hr : (recent_data 400 30 hist4).map FlowData.signal =
        ["BULLISH_FLOW", "BEARISH_FLOW", "BEARISH_FLOW", "BULLISH_FLOW"] := by
      norm_num [recent_data, hist4]
    rw [hr]
    decide

/-- C7 (amended): the summary is empty exactly when no record falls in the
lookback window; otherwise the reported distribution carries each occurring
label with its exact count, and the dominant label has maximal count, with
ties broken in favour of the tied label whose first record appears earliest
in chronological insertion order. -/
theorem C7_flow_summary (now lb : ℚ) (hist : List FlowData) :
    (recent_data now lb hist = [] → get_flow_summary now lb hist = Option.none) ∧
    ∀ s, get_flow_summary now lb hist = Option.some s →
      (∀ kv ∈ s.signal_distribution,
        kv.2 = ((recent_data now lb hist).map FlowData.signal).count kv.1) ∧
      (∀ t ∈ (recent_data now lb hist).map FlowData.signal,
        ∃ kv ∈ s.signal_distribution, kv.1 = t) ∧
      s.dominant_signal ∈ (recent_data now lb hist).map FlowData.signal ∧
      (∀ t, ((recent_data now lb hist).map FlowData.signal).count t ≤
        ((recent_data now lb hist).map FlowData.signal).count s.dominant_signal) ∧
      (∀ t ∈ (recent_data now lb hist).map FlowData.signal,
        ((recent_data now lb hist).map FlowData.signal).count t =
          ((recent_data now lb hist).map FlowData.signal).count s.dominant_signal →
        ((recent_data now lb hist).map FlowData.signal).indexOf s.dominant_signal ≤
          ((recent_data now lb hist).map FlowData.signal).indexOf t) := by
  constructor
  · intro h
    simp [get_flow_summary, h]
  · intro s hs
    simp only [get_flow_summary] at hs
    by_cases hre : recent_data now lb hist = []
    · rw [if_pos hre] at hs
      exact Option.noConfusion hs
    · rw [if_neg hre] at hs
      obtain rfl := (Option.some.inj hs).symm
      have hne : (recent_data now lb hist).map FlowData.signal ≠ [] := by
        intro h0
        exact hre (List.map_eq_nil_iff.mp h0)
      obtain ⟨t0, ht0⟩ := List.exists_mem_of_ne_nil _ hne
      have hkeys0 : t0 ∈ (signal_counts ((recent_data now lb hist).map FlowData.signal)).map
          Prod.fst := by
        rw [map_fst_signal_counts]
        exact (mem_firstOccs _ t0).mpr ht0
      rcases hc : signal_counts ((recent_data now lb hist).map FlowData.signal) with _ | ⟨c, cs⟩
      · rw [hc] at hkeys0
        exact absurd hkeys0 (List.not_mem_nil t0)
      · obtain ⟨hmem, hmax, hfind⟩ := pyMax_spec c cs
        rw [← hc] at hmem hfind
        have hdommem : (pyMax c cs).1 ∈ (recent_data now lb hist).map FlowData.signal := by
          have h1 : (pyMax c cs).1 ∈
              (signal_counts ((recent_data now lb hist).map FlowData.signal)).map Prod.fst :=
            List.mem_map_of_mem Prod.fst hmem
          rw [map_fst_signal_counts] at h1
          exact (mem_firstOccs _ _).mp h1
        have hrcount : (pyMax c cs).2 =
            ((recent_data now lb hist).map FlowData.signal).count (pyMax c cs).1 :=
          snd_eq_count_signal_counts _ _ hmem
        have hcover : ∀ t ∈ (recent_data now lb hist).map FlowData.signal,
            ∃ kv ∈ signal_counts ((recent_data now lb hist).map FlowData.signal), kv.1 = t := by
          intro t ht
          have h1 : t ∈ (signal_counts ((recent_data now lb hist).map
              FlowData.signal)).map Prod.fst := by
            rw [map_fst_signal_counts]
            exact (mem_firstOccs _ t).mpr ht
          exact List.mem_map.mp h1
        have hd2 : dominant_signal (c :: cs) = (pyMax c cs).1 := rfl
        dsimp only
        refine ⟨?_, ?_, ?_, ?_, ?_⟩
        · intro kv hkv
          rw [← hc] at hkv
          exact snd_eq_count_signal_counts _ kv hkv
        · intro t ht
          obtain ⟨kv, hkv, h1⟩ := hcover t ht
          rw [hc] at hkv
          exact ⟨kv, hkv, h1⟩
        · rw [hd2]
          exact hdommem
        · intro t
          rw [hd2]
          by_cases ht : t ∈ (recent_data now lb hist).map FlowData.signal
          · obtain ⟨kv, hkv, hkv1⟩ := hcover t ht
            have h1 : kv.2 ≤ (pyMax c cs).2 := hmax kv (hc ▸ hkv)
            have h2 : kv.2 = ((recent_data now lb hist).map FlowData.signal).count kv.1 :=
              snd_eq_count_signal_counts _ kv hkv
            rw [hkv1] at h2
            omega
          · rw [List.count_eq_zero_of_not_mem ht]
            exact Nat.zero_le _
        · intro t ht hteq
          rw [hd2] at hteq ⊢
          obtain ⟨kv, hkv, hkv1⟩ := hcover t ht
          have h2 : kv.2 = ((recent_data now lb hist).map FlowData.signal).count kv.1 :=
            snd_eq_count_signal_counts _ kv hkv
          have hval : kv.2 = (pyMax c cs).2 := by
            rw [h2, hkv1, hteq, hrcount]
          have hpw : ((signal_counts ((recent_data now lb hist).map
              FlowData.signal)).map Prod.fst).Pairwise
              (fun a b => ((recent_data now lb hist).map FlowData.signal).indexOf a <
                ((recent_data now lb hist).map FlowData.signal).indexOf b) := by
            rw [map_fst_signal_counts]
            exact pairwise_firstOccs _
          have hres := find?_first_key ((recent_data now lb hist).map FlowData.signal)
            (signal_counts ((recent_data now lb hist).map FlowData.signal))
            (pyMax c cs) kv hfind hkv hval hpw
          rw [hkv1] at hres
          exact hres

theorem recent_sigs_hist4 : (recent_data 400 30 hist4).map FlowData.signal =
    ["BULLISH_FLOW", "BEARISH_FLOW", "BEARISH_FLOW", "BULLISH_FLOW"] := by
  norm_num [recent_data, hist4]

theorem get_flow_summary_hist4 : get_flow_summary 400 30 hist4 = Option.some summary4 := by
  have hAB : ("BULLISH_FLOW" : String) ≠ "BEARISH_FLOW" := by decide
  have hBA : ("BEARISH_FLOW" : String) ≠ "BULLISH_FLOW" := by decide
  norm_num [get_flow_summary, recent_data, hist4, signal_counts, incrCount,
    dominant_signal, pyMax, summary4, hAB, hBA]
  intro h
  simp at h

/-- Witness for `C7_flow_summary` on `hist4`: the summary exists, the
bearish label ties the dominant label's count, and the dominant label's
first occurrence is no later. -/
theorem C7_flow_summary_witness :
    get_flow_summary 400 30 hist4 = Option.some summary4 ∧
    ((recent_data 400 30 hist4).map FlowData.signal).count "BEARISH_FLOW" =
      ((recent_data 400 30 hist4).map FlowData.signal).count summary4.dominant_signal ∧
    ((recent_data 400 30 hist4).map FlowData.signal).indexOf summary4.dominant_signal ≤
      ((recent_data 400 30 hist4).map FlowData.signal).indexOf "BEARISH_FLOW" :=
  ⟨get_flow_summary_hist4,
   by rw [recent_sigs_hist4]; decide,
   ((C7_flow_summary 400 30 hist4).2 summary4 get_flow_summary_hist4).2.2.2.2 "BEARISH_FLOW"
     (by rw [recent_sigs_hist4]; decide)
     (by rw [recent_sigs_hist4]; decide)⟩

end Oflo
